import Mathlib

/-!
Verification development for the updown uptime-monitoring backend.

The data-access module (src/lib.rs) is embedded as pure state-passing
functions over `DBState`, a snapshot of the SQLite database contents.
Machine integers (Rust i64, SQLite INTEGER) are modelled as `Int`; no
operation here can overflow an i64 in any scenario the theorems quantify
over, so no wraparound is applied.  The gateway clock `Database::now()`
(epoch seconds as f64) is modelled as an explicit `Int` argument threaded
into every write: only the ordering and equality of clock readings matter
to the specified properties, never their arithmetic.  Randomness (nanoid
login codes) and HTTP probe outcomes are likewise explicit arguments.
Store-level failures of individual SQL statements (connection loss etc.)
are not modelled; each embedded operation performs the statement the
source issues.
-/

/-- Row of the `users` table (struct `User` in src/lib.rs). -/
structure User where
  id : Int
  login_code : String
  created_at : Int
  updated_at : Int
deriving DecidableEq, Repr

/-- Row of the `logins` table (struct `Login` in src/lib.rs). -/
structure Login where
  id : Int
  user_id : Int
  created_at : Int
deriving DecidableEq, Repr

/-- Row of the `sites` table (struct `Site` in src/lib.rs). -/
structure Site where
  id : Int
  user_id : Int
  url : String
  name : Option String
  created_at : Int
  updated_at : Int
deriving DecidableEq, Repr

/-- Row of the `responses` table (struct `models::Response` in src/lib.rs). -/
structure Response where
  id : Int
  status_code : Int
  site_id : Int
  created_at : Int
  updated_at : Int
deriving DecidableEq, Repr

/-- Rust `Login::default()` (derived `Default`: zero ids, zero timestamps). -/
def Login.default : Login :=
  { id := 0, user_id := 0, created_at := 0 }

/-- Rust `Site::default()` (derived `Default`: zero ids, empty url, no name). -/
def Site.default : Site :=
  { id := 0, user_id := 0, url := "", name := none, created_at := 0, updated_at := 0 }

/-- Rust `Response::default()` (derived `Default`: all fields zero). -/
def Response.default : Response :=
  { id := 0, status_code := 0, site_id := 0, created_at := 0, updated_at := 0 }

/-- Snapshot of the database contents owned by `Database` (src/lib.rs).
Each table is a list of rows in insertion order; the `next_*` counters
model SQLite rowid assignment for the integer primary keys. -/
structure DBState where
  users : List User
  logins : List Login
  sites : List Site
  responses : List Response
  next_user_id : Int
  next_login_id : Int
  next_site_id : Int
  next_response_id : Int
deriving DecidableEq, Repr

/-- The freshly created database: empty tables, rowids starting at 1. -/
def empty0 : DBState :=
  { users := [], logins := [], sites := [], responses := [],
    next_user_id := 1, next_login_id := 1, next_site_id := 1, next_response_id := 1 }

/-- The error enum `AppError` of src/lib.rs. -/
inductive AppError where
  | Migrate
  | DatabaseInsert
  | Login
  | JsonParse
  | DatabaseSelect
  | UrlEmpty
  | Rollback
deriving DecidableEq, Repr

/-- Embedding of `Database::insert_user` (src/lib.rs lines 161-174):
`insert into users (login_code, created_at, updated_at) values (?, ?, ?)
returning *`.  The nanoid login code is an explicit argument; both
timestamps come from the gateway clock reading `now`. -/
def insert_user (s : DBState) (now : Int) (login_code : String) : DBState × User :=
  let row : User :=
    { id := s.next_user_id, login_code := login_code, created_at := now, updated_at := now }
  ({ s with users := s.users ++ [row], next_user_id := s.next_user_id + 1 }, row)

/-- Embedding of `Database::insert_login` (src/lib.rs lines 192-202):
`insert into logins (user_id, created_at) values (?, ?) returning *`.
Only `new_login.user_id` is read from the caller's record; the timestamp
comes from the gateway clock. -/
def insert_login (s : DBState) (now : Int) (new_login : Login) : DBState × Login :=
  let row : Login := { id := s.next_login_id, user_id := new_login.user_id, created_at := now }
  ({ s with logins := s.logins ++ [row], next_login_id := s.next_login_id + 1 }, row)

/-- Embedding of `Database::insert_site` (src/lib.rs lines 204-216):
`insert into sites (url, user_id, created_at, updated_at) values
(?, ?, ?, ?) returning *`.  Only `site.url` and `site.user_id` are read
from the caller's record; the `name` column is absent from the insert
list, so the persisted row's name is NULL; both timestamps come from the
gateway clock.  The sites schema (spec section 6) carries no non-empty
check on `url`, so the statement succeeds for any url string. -/
def insert_site (s : DBState) (now : Int) (site : Site) : DBState × Site :=
  let row : Site :=
    { id := s.next_site_id, user_id := site.user_id, url := site.url, name := none,
      created_at := now, updated_at := now }
  ({ s with sites := s.sites ++ [row], next_site_id := s.next_site_id + 1 }, row)

/-- The conflict target of the upsert: does row `r` carry the same
(status_code, site_id) key as the argument record `q`? -/
def sameKey (q r : Response) : Bool :=
  r.status_code == q.status_code && r.site_id == q.site_id

/-- The row rewrite performed by the upsert's `do update set updated_at = ?`
arm: rows carrying the conflicting (status_code, site_id) key get their
updated_at set to `t`; every other row, and every other column, is left
untouched. -/
def touch (q : Response) (t : Int) (l : List Response) : List Response :=
  l.map (fun r => if sameKey q r then { r with updated_at := t } else r)

/-- Embedding of `Database::upsert_response` (src/lib.rs lines 230-236):
`insert into responses (status_code, site_id, created_at, updated_at)
values (?, ?, ?, ?) on conflict (status_code, site_id) do update set
updated_at = ? returning *`.  Only `response.status_code` and
`response.site_id` are read from the caller's record; every bound
timestamp is the same gateway clock reading `now`.  On conflict with the
unique (status_code, site_id) index the existing row keeps its id and
created_at and only its updated_at is set to `now`. -/
def upsert_response (s : DBState) (now : Int) (response : Response) : DBState × Response :=
  match s.responses.find? (sameKey response) with
  | some existing =>
      ({ s with responses := touch response now s.responses },
       { existing with updated_at := now })
  | none =>
      let row : Response :=
        { id := s.next_response_id, status_code := response.status_code,
          site_id := response.site_id, created_at := now, updated_at := now }
      ({ s with
          responses := s.responses ++ [row],
          next_response_id := s.next_response_id + 1 }, row)

/-- The uniqueness invariant enforced by the unique (status_code, site_id)
index of the responses table: no two rows share the pair. -/
def uniquePairs : List Response → Bool
  | [] => true
  | r :: rest => rest.all (fun x => ! sameKey r x) && uniquePairs rest

/-- One write operation of the Storage Gateway, together with the external
inputs (clock reading, random login code, caller record) of that call.
Concurrent invocations are modelled as an arbitrary sequential interleaving:
SQLite executes each of these single statements atomically, which is
exactly what spec section 5 relies on for the dedup invariant. -/
inductive Op where
  | opInsertUser (now : Int) (login_code : String)
  | opInsertLogin (now : Int) (new_login : Login)
  | opInsertSite (now : Int) (site : Site)
  | opUpsertResponse (now : Int) (response : Response)
deriving DecidableEq, Repr

/-- State reached by one gateway write. -/
def applyOp (s : DBState) : Op → DBState
  | Op.opInsertUser now lc => (insert_user s now lc).1
  | Op.opInsertLogin now l => (insert_login s now l).1
  | Op.opInsertSite now st => (insert_site s now st).1
  | Op.opUpsertResponse now r => (upsert_response s now r).1

/-- State reached by a sequence of gateway writes. -/
def run (s : DBState) (ops : List Op) : DBState :=
  ops.foldl applyOp s

/-- Modelled from the spec: the repository's data-access module defines no
`latest_response_for_site`; spec section 4.1 describes it as returning the
row with the greatest updated_at among rows sharing `site_id`, failing if
none exist yet.  `latestBy` scans a row list keeping the row with the
greatest updated_at (the earlier row on ties). -/
def latestBy : List Response → Option Response
  | [] => none
  | r :: rest =>
      match latestBy rest with
      | none => some r
      | some best => if r.updated_at < best.updated_at then some best else some r

/-- Modelled from the spec: `latest_response_for_site(site_id)` returns the
row with the greatest updated_at among Response rows sharing that site_id,
and `none` (the failure case) when that site has no Response row yet. -/
def latest_response_for_site (s : DBState) (site_id : Int) : Option Response :=
  latestBy (s.responses.filter (fun r => r.site_id == site_id))

/-- The sqlx migration kinds: a plain one-script migration, or the paired
up and down scripts of a reversible migration.  `is_down_migration` is
true exactly on the down half of a reversible pair. -/
inductive MigrationType where
  | simple
  | reversibleUp
  | reversibleDown
deriving DecidableEq, Repr

/-- Embedding of `MigrationType::is_down_migration` from sqlx. -/
def MigrationType.is_down_migration : MigrationType → Bool
  | MigrationType.reversibleDown => true
  | _ => false

/-- One entry of the static migration list embedded by `sqlx::migrate!()`.
The repository's migrations directory is not part of the source files, so
the list itself stays an arbitrary parameter; `sql` is the script text of
this entry (for a down entry, the reverse script). -/
structure Migration where
  version : Int
  migration_type : MigrationType
  sql : String
deriving DecidableEq, Repr

/-- The store state that `Database::rollback` touches: the
`_sqlx_migrations` ledger (its version column) and, as an ordered log, the
SQL scripts the call has executed against the store. -/
structure RollbackState where
  ledger : List Int
  executed : List String
deriving DecidableEq, Repr

/-- Embedding of `Database::rollback` (src/lib.rs lines 109-135).  The
source filters the static migration list to its down entries and takes the
iterator's last element; with `Some(migration)` it re-checks
`is_down_migration` (always true after the filter), executes
`migration.sql` (the reverse script) and then issues
`delete from _sqlx_migrations where version = ?` with that entry's
version; with `None` it returns `Err(AppError::Rollback)` having issued no
statement.  Store-level failure of the two statements themselves is not
modelled. -/
def rollback (migs : List Migration) (s : RollbackState) :
    RollbackState × Except AppError Unit :=
  match (migs.filter (fun m => m.migration_type.is_down_migration)).getLast? with
  | some migration =>
      if migration.migration_type.is_down_migration then
        ({ ledger := s.ledger.filter (fun v => ! (v == migration.version)),
           executed := s.executed ++ [migration.sql] }, Except.ok ())
      else (s, Except.error AppError.Rollback)
  | none => (s, Except.error AppError.Rollback)

/-- Outcome of the one outbound HTTP GET that `reqwest::get(&site.url)`
performs for a site: a completed response carrying a numeric status, or a
network-level failure (connection error, timeout, malformed response). -/
inductive ProbeResult where
  | completed (status_code : Int)
  | networkError
deriving DecidableEq, Repr

/-- Embedding of `response` (src/bin/watch.rs lines 34-40).  On a completed
HTTP exchange it builds `Response::default()` with `status_code` and
`site_id` filled in; on a network-level failure the `?` operator
propagates the reqwest error to the caller as `Err` — no Response value
and no sentinel status code is produced. -/
def response (outcome : ProbeResult) (site : Site) : Except Unit Response :=
  match outcome with
  | ProbeResult.completed status_code =>
      Except.ok { Response.default with status_code := status_code, site_id := site.id }
  | ProbeResult.networkError => Except.error ()

/-- The per-site loop of `monitor` (src/bin/watch.rs lines 25-32): for each
site in order, probe it and upsert the result; the `?` operator on the
probe (and on the upsert) returns early on the first failure, so the
remaining sites of the tick are neither probed nor stored.  The returned
pair carries the database state (effects already performed persist) and
`some ()` when an error escaped the loop. -/
def monitorLoop (probe : Site → ProbeResult) (now : Int) :
    DBState → List Site → DBState × Option Unit
  | s, [] => (s, none)
  | s, site :: rest =>
      match response (probe site) site with
      | Except.error _ => (s, some ())
      | Except.ok resp => monitorLoop probe now (upsert_response s now resp).1 rest

/-- Embedding of `monitor` (src/bin/watch.rs lines 25-32): fetch the full
site list from the store, then run the per-site loop.  `probe` gives each
site's HTTP outcome for this tick and `now` the gateway clock during it. -/
def monitor (probe : Site → ProbeResult) (now : Int) (s : DBState) :
    DBState × Option Unit :=
  monitorLoop probe now s s.sites

/-- State of the scheduler loop of `main` (src/bin/watch.rs lines 13-23):
the index of the next interval tick, the ticks dispatched so far, and the
discarded results of the spawned monitor tasks (`tokio::spawn` returns a
handle the loop never joins, and `_ = monitor().await` drops the task's
own Result). -/
structure SchedState where
  next_tick : Nat
  dispatched : List Nat
  outcomes : List Bool
deriving DecidableEq, Repr

/-- The scheduler before its first tick. -/
def sched_init : SchedState :=
  { next_tick := 0, dispatched := [], outcomes := [] }

/-- One iteration of the scheduler loop: await the interval tick, spawn the
monitor task for it (whose eventual success or failure is
`monitor_outcome`), and continue; nothing in the loop body reads the
spawned task's outcome. -/
def schedStep (monitor_outcome : Nat → Bool) (s : SchedState) : SchedState :=
  { next_tick := s.next_tick + 1,
    dispatched := s.dispatched ++ [s.next_tick],
    outcomes := s.outcomes ++ [monitor_outcome s.next_tick] }

/-- The scheduler loop after `n` iterations. -/
def schedRun (monitor_outcome : Nat → Bool) : Nat → SchedState
  | 0 => sched_init
  | n + 1 => schedStep monitor_outcome (schedRun monitor_outcome n)

/-- Embedding of the `signup` handler (src/main.rs lines 304-346) on its
store-reachable path: the JSON body parsed and a session present (the
branches that return 401 without touching the store are not taken).  The
handler checks `url.is_empty()` and renders a 422 UrlEmpty response, but
no early return follows the check, so it proceeds to insert the user, the
login row and the site row regardless.  The returned Nat is the HTTP
status of the rendered reply (422 when the empty-url branch fired, 200
otherwise). -/
def signup (s : DBState) (now : Int) (login_code : String) (url : String) :
    DBState × Nat :=
  let status := if url.isEmpty then 422 else 200
  let p1 := insert_user s now login_code
  let p2 := insert_login p1.1 now { Login.default with user_id := p1.2.id }
  let p3 := insert_site p2.1 now { Site.default with user_id := p1.2.id, url := url }
  (p3.1, status)

/-- A site used as concrete input below. -/
def siteA : Site :=
  { id := 1, user_id := 1, url := "https://a.test", name := none, created_at := 0, updated_at := 0 }

/-- A second site used as concrete input below. -/
def siteB : Site :=
  { id := 2, user_id := 1, url := "https://b.test", name := none, created_at := 0, updated_at := 0 }

/-- A tick's probe outcomes with two sites: the probe of site 1 hits a
network error while site 2 answers HTTP 200. -/
def probe1 : Site → ProbeResult :=
  fun site => if site.id == 1 then ProbeResult.networkError else ProbeResult.completed 200

/-- A database holding the two sites and no responses yet. -/
def stateAB : DBState :=
  { empty0 with sites := [siteA, siteB], next_site_id := 3 }

/-- A caller-supplied response record with nonzero id and timestamps. -/
def q0 : Response :=
  { id := 99, status_code := 200, site_id := 1, created_at := 55, updated_at := 66 }

/-- A record carrying the same (status_code, site_id) pair as `q0` but
different id and timestamps. -/
def q0b : Response :=
  { id := 42, status_code := 200, site_id := 1, created_at := 5, updated_at := 6 }

/-- Two caller login records differing only in their timestamp field. -/
def loginX : Login := { id := 4, user_id := 7, created_at := 11 }

/-- See `loginX`. -/
def loginY : Login := { id := 4, user_id := 7, created_at := 22 }

/-- Two caller site records differing only in their timestamp fields. -/
def siteX : Site :=
  { id := 3, user_id := 7, url := "https://x.test", name := none, created_at := 11, updated_at := 12 }

/-- See `siteX`. -/
def siteY : Site :=
  { id := 3, user_id := 7, url := "https://x.test", name := none, created_at := 21, updated_at := 22 }

/-- Two caller response records differing only in their timestamp fields. -/
def respX : Response :=
  { id := 5, status_code := 200, site_id := 3, created_at := 11, updated_at := 12 }

/-- See `respX`. -/
def respY : Response :=
  { id := 5, status_code := 200, site_id := 3, created_at := 21, updated_at := 22 }

/-- A concrete gateway write sequence: a user, a site, the same
(200, site 1) observation twice, then a (500, site 1) observation. -/
def opsW : List Op :=
  [Op.opInsertUser 1 "code-a",
   Op.opInsertSite 2 siteX,
   Op.opUpsertResponse 3 { Response.default with status_code := 200, site_id := 1 },
   Op.opUpsertResponse 4 { Response.default with status_code := 200, site_id := 1 },
   Op.opUpsertResponse 5 { Response.default with status_code := 500, site_id := 1 }]

/-- A database with three stored responses: site 1 observed 200 (updated at
9) and 500 (updated at 5), site 2 observed 200 (updated at 99). -/
def stateResp : DBState :=
  { empty0 with
      responses :=
        [{ id := 1, status_code := 200, site_id := 1, created_at := 1, updated_at := 9 },
         { id := 2, status_code := 500, site_id := 1, created_at := 2, updated_at := 5 },
         { id := 3, status_code := 200, site_id := 2, created_at := 3, updated_at := 99 }],
      next_response_id := 4 }

theorem sameKey_true_iff (q r : Response) :
    sameKey q r = true ↔ r.status_code = q.status_code ∧ r.site_id = q.site_id := by
  simp [sameKey]

theorem sameKey_comm (a b : Response) : sameKey a b = sameKey b a := by
  rw [Bool.eq_iff_iff, sameKey_true_iff, sameKey_true_iff]
  constructor
  · rintro ⟨h1, h2⟩; exact ⟨h1.symm, h2.symm⟩
  · rintro ⟨h1, h2⟩; exact ⟨h1.symm, h2.symm⟩

theorem sameKey_congr_left (q r : Response) (h : sameKey q r = true) (x : Response) :
    sameKey r x = sameKey q x := by
  obtain ⟨h1, h2⟩ := (sameKey_true_iff q r).mp h
  simp [sameKey, h1, h2]

theorem sameKey_touch_elem (q p r : Response) (t : Int) :
    sameKey p (if sameKey q r then { r with updated_at := t } else r) = sameKey p r := by
  cases hqr : sameKey q r <;> simp [hqr, sameKey]

theorem sameKey_left_touch_elem (q r : Response) (t : Int) (p : Response) :
    sameKey (if sameKey q r then { r with updated_at := t } else r) p = sameKey r p := by
  cases hqr : sameKey q r <;> simp [hqr, sameKey]

theorem touch_cons (q : Response) (t : Int) (r : Response) (l : List Response) :
    touch q t (r :: l) =
      (if sameKey q r then { r with updated_at := t } else r) :: touch q t l := rfl

theorem uniquePairs_cons (r : Response) (l : List Response) :
    uniquePairs (r :: l) = (l.all (fun x => ! sameKey r x) && uniquePairs l) := rfl

theorem uniquePairs_touch (q : Response) (t : Int) (l : List Response) :
    uniquePairs (touch q t l) = uniquePairs l := by
  induction l with
  | nil => rfl
  | cons r rest ih =>
      rw [touch_cons, uniquePairs_cons, uniquePairs_cons, ih]
      have hfun : ((fun x => ! sameKey (if sameKey q r then { r with updated_at := t } else r) x) ∘
          (fun x => if sameKey q x then { x with updated_at := t } else x)) =
          (fun x => ! sameKey r x) := by
        funext x
        show (! sameKey (if sameKey q r then { r with updated_at := t } else r)
          (if sameKey q x then { x with updated_at := t } else x)) = ! sameKey r x
        rw [sameKey_touch_elem, sameKey_left_touch_elem]
      rw [touch, List.all_map, hfun]

theorem uniquePairs_append_singleton (l : List Response) (row : Response)
    (h1 : uniquePairs l = true) (h2 : ∀ x ∈ l, sameKey row x = false) :
    uniquePairs (l ++ [row]) = true := by
  induction l with
  | nil => rfl
  | cons r rest ih =>
      rw [List.cons_append, uniquePairs_cons]
      rw [uniquePairs_cons, Bool.and_eq_true] at h1
      obtain ⟨ha, hu⟩ := h1
      rw [Bool.and_eq_true]
      constructor
      · rw [List.all_append, Bool.and_eq_true]
        refine ⟨ha, ?_⟩
        have hrow : sameKey r row = false := by
          have hx := h2 r (List.mem_cons_self r rest)
          rw [sameKey_comm row r] at hx
          exact hx
        simp [hrow]
      · exact ih hu (fun x hx => h2 x (List.mem_cons_of_mem r hx))

theorem find?_touch (q : Response) (t : Int) (l : List Response) (e : Response)
    (h : l.find? (sameKey q) = some e) :
    (touch q t l).find? (sameKey q) = some { e with updated_at := t } := by
  induction l generalizing e with
  | nil => simp [List.find?] at h
  | cons r rest ih =>
      rw [touch_cons]
      by_cases hqr : sameKey q r = true
      · rw [List.find?_cons_of_pos rest hqr] at h
        injection h with h
        subst h
        have hpos : sameKey q (if sameKey q r then { r with updated_at := t } else r) = true := by
          rw [sameKey_touch_elem]; exact hqr
        rw [List.find?_cons_of_pos _ hpos, if_pos hqr]
      · rw [List.find?_cons_of_neg rest hqr] at h
        have hneg : ¬ sameKey q (if sameKey q r then { r with updated_at := t } else r) = true := by
          rw [sameKey_touch_elem]; exact hqr
        rw [List.find?_cons_of_neg _ hneg]
        exact ih e h

theorem find?_append_singleton (q : Response) (l : List Response) (row : Response)
    (hnone : l.find? (sameKey q) = none) (hrow : sameKey q row = true) :
    (l ++ [row]).find? (sameKey q) = some row := by
  rw [List.find?_append, hnone]
  simp [List.find?, hrow]

theorem filter_length_one (q : Response) (l : List Response)
    (h1 : uniquePairs l = true) (e : Response) (h2 : l.find? (sameKey q) = some e) :
    (l.filter (sameKey q)).length = 1 := by
  induction l generalizing e with
  | nil => simp [List.find?] at h2
  | cons r rest ih =>
      rw [uniquePairs_cons, Bool.and_eq_true] at h1
      obtain ⟨ha, hu⟩ := h1
      by_cases hqr : sameKey q r = true
      · rw [List.filter_cons_of_pos hqr]
        have hrest : rest.filter (sameKey q) = [] := by
          rw [List.filter_eq_nil_iff]
          intro x hx
          rw [← sameKey_congr_left q r hqr x]
          have hall := List.all_eq_true.mp ha x hx
          simp only [Bool.not_eq_true'] at hall
          simp [hall]
        rw [hrest]
        rfl
      · rw [List.filter_cons_of_neg hqr]
        rw [List.find?_cons_of_neg rest hqr] at h2
        exact ih hu e h2

theorem upsert_post (s : DBState) (now : Int) (q : Response)
    (h : uniquePairs s.responses = true) :
    uniquePairs (upsert_response s now q).1.responses = true ∧
    (upsert_response s now q).1.responses.find? (sameKey q) = some (upsert_response s now q).2 ∧
    (upsert_response s now q).2.updated_at = now := by
  cases hf : s.responses.find? (sameKey q) with
  | some e =>
      have h1 : (upsert_response s now q).1.responses = touch q now s.responses := by
        simp [upsert_response, hf]
      have h2 : (upsert_response s now q).2 = { e with updated_at := now } := by
        simp [upsert_response, hf]
      rw [h1, h2]
      refine ⟨?_, ?_, rfl⟩
      · rw [uniquePairs_touch]; exact h
      · exact find?_touch q now s.responses e hf
  | none =>
      have hrowkey : sameKey q
          { id := s.next_response_id, status_code := q.status_code,
            site_id := q.site_id, created_at := now, updated_at := now } = true := by
        simp [sameKey]
      have h1 : (upsert_response s now q).1.responses = s.responses ++
          [{ id := s.next_response_id, status_code := q.status_code,
             site_id := q.site_id, created_at := now, updated_at := now }] := by
        simp [upsert_response, hf]
      have h2 : (upsert_response s now q).2 =
          { id := s.next_response_id, status_code := q.status_code,
            site_id := q.site_id, created_at := now, updated_at := now } := by
        simp [upsert_response, hf]
      rw [h1, h2]
      refine ⟨?_, ?_, rfl⟩
      · apply uniquePairs_append_singleton _ _ h
        intro x hx
        have hqx := List.find?_eq_none.mp hf x hx
        simp only [Bool.not_eq_true] at hqx
        have hkeys : sameKey
            { id := s.next_response_id, status_code := q.status_code,
              site_id := q.site_id, created_at := now, updated_at := now } x = sameKey q x := by
          simp [sameKey]
        rw [hkeys]
        exact hqx
      · exact find?_append_singleton q s.responses _ hf hrowkey

theorem upsert_response_congr (s : DBState) (now : Int) (p q : Response)
    (h1 : p.status_code = q.status_code) (h2 : p.site_id = q.site_id) :
    upsert_response s now p = upsert_response s now q := by
  have hk : sameKey p = sameKey q := by
    funext r
    simp [sameKey, h1, h2]
  simp only [upsert_response, touch, hk, h1, h2]

theorem find?_eq_head_filter {α : Type} (p : α → Bool) (l : List α) :
    l.find? p = (l.filter p).head? := by
  induction l with
  | nil => rfl
  | cons a l ih =>
      by_cases h : p a = true
      · rw [List.find?_cons_of_pos l h, List.filter_cons_of_pos h]
        rfl
      · rw [List.find?_cons_of_neg l h, List.filter_cons_of_neg h]
        exact ih

theorem getLast?_filter_eq_reverse_find? {α : Type} (p : α → Bool) (l : List α) :
    (l.filter p).getLast? = l.reverse.find? p := by
  rw [List.getLast?_eq_head?_reverse, ← List.filter_reverse, ← find?_eq_head_filter]

theorem latestBy_cons_isSome (a : Response) (l : List Response) :
    (latestBy (a :: l)).isSome = true := by
  cases hl : latestBy l
  · simp [latestBy, hl]
  · simp only [latestBy, hl]
    split <;> rfl

theorem latestBy_eq_none (l : List Response) : latestBy l = none ↔ l = [] := by
  cases l with
  | nil => simp [latestBy]
  | cons a l =>
      constructor
      · intro h
        have := latestBy_cons_isSome a l
        rw [h] at this
        simp at this
      · intro h
        simp at h

theorem latestBy_mem_le (l : List Response) (r : Response) (h : latestBy l = some r) :
    r ∈ l ∧ ∀ x ∈ l, x.updated_at ≤ r.updated_at := by
  induction l generalizing r with
  | nil => simp [latestBy] at h
  | cons a l ih =>
      cases hl : latestBy l with
      | none =>
          have hnil : l = [] := (latestBy_eq_none l).mp hl
          subst hnil
          simp only [latestBy] at h
          injection h with h
          subst h
          exact ⟨List.mem_cons_self _ _, by intro x hx; simp at hx; subst hx; exact le_refl _⟩
      | some best =>
          obtain ⟨hmem, hle⟩ := ih best hl
          simp only [latestBy, hl] at h
          by_cases hcmp : a.updated_at < best.updated_at
          · rw [if_pos hcmp] at h
            injection h with h
            subst h
            refine ⟨List.mem_cons_of_mem a hmem, ?_⟩
            intro x hx
            rcases List.mem_cons.mp hx with hx | hx
            · subst hx; exact le_of_lt hcmp
            · exact hle x hx
          · rw [if_neg hcmp] at h
            injection h with h
            subst h
            refine ⟨List.mem_cons_self _ _, ?_⟩
            intro x hx
            rcases List.mem_cons.mp hx with hx | hx
            · subst hx; exact le_refl _
            · exact le_trans (hle x hx) (not_lt.mp hcmp)

theorem schedRun_spec (o : Nat → Bool) (n : Nat) :
    (schedRun o n).dispatched = List.range n ∧ (schedRun o n).next_tick = n := by
  induction n with
  | zero => exact ⟨rfl, rfl⟩
  | succ n ih =>
      obtain ⟨h1, h2⟩ := ih
      constructor
      · show (schedRun o n).dispatched ++ [(schedRun o n).next_tick] = List.range (n + 1)
        rw [h1, h2, List.range_succ]
      · show (schedRun o n).next_tick + 1 = n + 1
        rw [h2]

theorem upsert_response_conflict (s : DBState) (now : Int) (q e : Response)
    (hf : s.responses.find? (sameKey q) = some e) :
    upsert_response s now q =
      ({ s with responses := touch q now s.responses }, { e with updated_at := now }) := by
  simp [upsert_response, hf]

/-- C1: calling upsert_response twice with the same (site_id, status_code)
pair leaves exactly one Response row for that pair; the second call changes
only that row's updated_at, which strictly advances when the gateway clock
advanced between the calls, and the row's id is unchanged. -/
theorem upsert_response_twice (s : DBState) (t1 t2 : Int) (q1 q2 : Response)
    (hst : q2.status_code = q1.status_code) (hsi : q2.site_id = q1.site_id)
    (hinv : uniquePairs s.responses = true) (ht : t1 < t2) :
    ((upsert_response (upsert_response s t1 q1).1 t2 q2).1.responses.filter
        (sameKey q1)).length = 1 ∧
    (upsert_response (upsert_response s t1 q1).1 t2 q2).2.id =
      (upsert_response s t1 q1).2.id ∧
    (upsert_response (upsert_response s t1 q1).1 t2 q2).2 =
      { (upsert_response s t1 q1).2 with updated_at := t2 } ∧
    (upsert_response s t1 q1).2.updated_at <
      (upsert_response (upsert_response s t1 q1).1 t2 q2).2.updated_at ∧
    (upsert_response (upsert_response s t1 q1).1 t2 q2).1.responses =
      touch q1 t2 (upsert_response s t1 q1).1.responses := by
  obtain ⟨hu1, hfind1, hupd1⟩ := upsert_post s t1 q1 hinv
  have hcongr : upsert_response (upsert_response s t1 q1).1 t2 q2 =
      upsert_response (upsert_response s t1 q1).1 t2 q1 :=
    upsert_response_congr _ t2 q2 q1 hst hsi
  have hconf := upsert_response_conflict (upsert_response s t1 q1).1 t2 q1
    (upsert_response s t1 q1).2 hfind1
  have h2state : (upsert_response (upsert_response s t1 q1).1 t2 q1).1.responses =
      touch q1 t2 (upsert_response s t1 q1).1.responses := by
    rw [hconf]
  have h2ret : (upsert_response (upsert_response s t1 q1).1 t2 q1).2 =
      { (upsert_response s t1 q1).2 with updated_at := t2 } := by
    rw [hconf]
  rw [hcongr]
  refine ⟨?_, ?_, h2ret, ?_, h2state⟩
  · rw [h2state]
    have hu2 : uniquePairs (touch q1 t2 (upsert_response s t1 q1).1.responses) = true := by
      rw [uniquePairs_touch]
      exact hu1
    have hf2 := find?_touch q1 t2 (upsert_response s t1 q1).1.responses
      (upsert_response s t1 q1).2 hfind1
    exact filter_length_one q1 _ hu2 _ hf2
  · rw [h2ret]
  · rw [h2ret]
    show (upsert_response s t1 q1).2.updated_at < t2
    rw [hupd1]
    exact ht

/-- C1 witness: the property holds at the concrete record pair q0, q0b on
the empty database with clock readings 0 and 1. -/
theorem upsert_response_twice_witness :
    q0b.status_code = q0.status_code ∧ q0b.site_id = q0.site_id ∧
    uniquePairs empty0.responses = true ∧ ((0 : Int) < 1) ∧
    (((upsert_response (upsert_response empty0 0 q0).1 1 q0b).1.responses.filter
        (sameKey q0)).length = 1 ∧
     (upsert_response (upsert_response empty0 0 q0).1 1 q0b).2.id =
       (upsert_response empty0 0 q0).2.id ∧
     (upsert_response (upsert_response empty0 0 q0).1 1 q0b).2 =
       { (upsert_response empty0 0 q0).2 with updated_at := 1 } ∧
     (upsert_response empty0 0 q0).2.updated_at <
       (upsert_response (upsert_response empty0 0 q0).1 1 q0b).2.updated_at ∧
     (upsert_response (upsert_response empty0 0 q0).1 1 q0b).1.responses =
       touch q0 1 (upsert_response empty0 0 q0).1.responses) :=
  ⟨rfl, rfl, rfl, by decide,
   upsert_response_twice empty0 0 1 q0 q0b rfl rfl rfl (by decide)⟩

/-- C2: the at-most-one-row-per-(status_code, site_id) invariant holds in
every database state reachable by gateway writes from a state satisfying
it, so every single operation (in particular upsert_response, and any
serialized interleaving of concurrent invocations) preserves it. -/
theorem responses_unique_pair_invariant (s : DBState) (ops : List Op)
    (h : uniquePairs s.responses = true) :
    uniquePairs (run s ops).responses = true := by
  induction ops generalizing s with
  | nil => exact h
  | cons op rest ih =>
      have hstep : uniquePairs (applyOp s op).responses = true := by
        cases op with
        | opInsertUser now lc => exact h
        | opInsertLogin now l => exact h
        | opInsertSite now st => exact h
        | opUpsertResponse now r => exact (upsert_post s now r h).1
      exact ih (applyOp s op) hstep

/-- C2 witness: starting from the empty database (which satisfies the
invariant) the concrete write sequence opsW, containing a duplicated
upsert of the same pair, ends in a state still satisfying it. -/
theorem responses_unique_pair_invariant_witness :
    uniquePairs empty0.responses = true ∧
    uniquePairs (run empty0 opsW).responses = true :=
  ⟨rfl, responses_unique_pair_invariant empty0 opsW rfl⟩

/-- C3 fails on the code: with two sites where the first probe hits a
network error and the second answers 200, `monitor` aborts the tick at the
first site's failure, the error escapes the loop, and the 200 result for
site 2 is never persisted — the database is left exactly as it was. -/
theorem monitor_aborts_tick_on_first_failure :
    (monitor probe1 100 stateAB).2 = some () ∧
    (monitor probe1 100 stateAB).1.responses.filter
      (fun r => r.site_id == (2 : Int)) = [] ∧
    (monitor probe1 100 stateAB).1 = stateAB :=
  ⟨rfl, rfl, rfl⟩

/-- C4 fails on the code: on a network-level probe failure, `response`
propagates the reqwest error through the `?` operator as `Err` instead of
reducing it to a sentinel status code; only a completed HTTP exchange
yields a Response value (carrying the numeric status). -/
theorem response_propagates_probe_failure :
    response ProbeResult.networkError siteA = Except.error () ∧
    response (ProbeResult.completed 200) siteA =
      Except.ok { id := 0, status_code := 200, site_id := 1,
                  created_at := 0, updated_at := 0 } :=
  ⟨rfl, rfl⟩

/-- C5 fails on the code: signup with an empty url renders the 422
UrlEmpty error but, lacking an early return, still inserts the user, the
login and a site row with url equal to the empty string, so the site list
afterward differs from the (empty) list before the call. -/
theorem signup_empty_url_creates_site :
    (signup empty0 7 "code123" "").2 = 422 ∧
    (signup empty0 7 "code123" "").1.sites =
      [{ id := 1, user_id := 1, url := "", name := none,
         created_at := 7, updated_at := 7 }] ∧
    empty0.sites = [] :=
  ⟨rfl, rfl, rfl⟩

/-- C6: rollback selects the last migration in the static list that
defines a reverse script — a function of the migration list alone, not of
the ledger — executes exactly that reverse script and deletes the ledger
rows matching its version; when no migration defines a reverse script it
returns the Rollback error and leaves the state untouched. -/
theorem rollback_spec (migs : List Migration) (s : RollbackState) :
    match migs.reverse.find? (fun m => m.migration_type.is_down_migration) with
    | some m =>
        rollback migs s =
          ({ ledger := s.ledger.filter (fun v => ! (v == m.version)),
             executed := s.executed ++ [m.sql] }, Except.ok ())
    | none => rollback migs s = (s, Except.error AppError.Rollback) := by
  have hsel : (migs.filter (fun m => m.migration_type.is_down_migration)).getLast?
      = migs.reverse.find? (fun m => m.migration_type.is_down_migration) :=
    getLast?_filter_eq_reverse_find? _ _
  cases hf : migs.reverse.find? (fun m => m.migration_type.is_down_migration) with
  | some m =>
      have hm : m.migration_type.is_down_migration = true := by
        have h := @List.find?_some Migration
          (fun x => x.migration_type.is_down_migration) m migs.reverse hf
        simpa using h
      simp only [rollback, hsel, hf, hm, if_pos]
  | none =>
      simp only [rollback, hsel, hf]

/-- C7 (spec-modelled): latest_response_for_site returns a row of that
site whose updated_at is greatest among the site's rows, and fails
exactly when the site has no Response row yet. -/
theorem latest_response_for_site_spec (s : DBState) (sid : Int) :
    match latest_response_for_site s sid with
    | none => s.responses.filter (fun r => r.site_id == sid) = []
    | some r =>
        r ∈ s.responses.filter (fun x => x.site_id == sid) ∧ r.site_id = sid ∧
        ∀ x ∈ s.responses.filter (fun x => x.site_id == sid),
          x.updated_at ≤ r.updated_at := by
  cases hf : latest_response_for_site s sid with
  | none =>
      have hf' : latestBy (s.responses.filter (fun x => x.site_id == sid)) = none := hf
      exact (latestBy_eq_none _).mp hf'
  | some r =>
      have hf' : latestBy (s.responses.filter (fun x => x.site_id == sid)) = some r := hf
      obtain ⟨hmem, hle⟩ := latestBy_mem_le _ r hf'
      refine ⟨hmem, ?_, hle⟩
      have hsid := (List.mem_filter.mp hmem).2
      simpa using hsid

/-- C8: the scheduler dispatches every tick no matter how the spawned
monitor tasks fare: after n + 2 loop iterations the dispatched ticks are
exactly 0..n+1 for every outcome assignment, tick n + 1 is among them
(regardless of whether tick n's task failed), and the dispatch trace is
identical under any two outcome assignments. -/
theorem scheduler_ticks_independent_of_task_outcomes
    (o o' : Nat → Bool) (n : Nat) :
    (schedRun o (n + 2)).dispatched = List.range (n + 2) ∧
    (n + 1) ∈ (schedRun o (n + 2)).dispatched ∧
    (schedRun o (n + 2)).dispatched = (schedRun o' (n + 2)).dispatched := by
  obtain ⟨h1, _⟩ := schedRun_spec o (n + 2)
  obtain ⟨h1', _⟩ := schedRun_spec o' (n + 2)
  refine ⟨h1, ?_, ?_⟩
  · rw [h1, List.mem_range]
    omega
  · rw [h1, h1']

/-- C9: the persisted timestamps come from the gateway clock reading of
the call, and every write is independent of the caller-supplied
created_at/updated_at fields: calls whose argument records agree on the
fields the statements bind produce identical results. -/
theorem writes_ignore_caller_timestamps (s : DBState) (now : Int) (lc : String)
    (a b : Login) (c d : Site) (p q : Response)
    (hab : a.user_id = b.user_id)
    (hcd1 : c.url = d.url) (hcd2 : c.user_id = d.user_id)
    (hpq1 : p.status_code = q.status_code) (hpq2 : p.site_id = q.site_id) :
    insert_login s now a = insert_login s now b ∧
    insert_site s now c = insert_site s now d ∧
    upsert_response s now p = upsert_response s now q ∧
    (insert_user s now lc).2.created_at = now ∧
    (insert_user s now lc).2.updated_at = now ∧
    (insert_login s now a).2.created_at = now ∧
    (insert_site s now c).2.created_at = now ∧
    (insert_site s now c).2.updated_at = now ∧
    (upsert_response s now p).2.updated_at = now := by
  refine ⟨?_, ?_, upsert_response_congr s now p q hpq1 hpq2, rfl, rfl, rfl, rfl, rfl, ?_⟩
  · simp [insert_login, hab]
  · simp [insert_site, hcd1, hcd2]
  · cases hf : s.responses.find? (sameKey p) <;> simp [upsert_response, hf]

/-- C9 witness: concrete argument records differing only in their
timestamp fields (loginX/loginY, siteX/siteY, respX/respY) persist
identical rows, stamped with the clock reading 3. -/
theorem writes_ignore_caller_timestamps_witness :
    loginX.user_id = loginY.user_id ∧ siteX.url = siteY.url ∧
    siteX.user_id = siteY.user_id ∧ respX.status_code = respY.status_code ∧
    respX.site_id = respY.site_id ∧
    (insert_login empty0 3 loginX = insert_login empty0 3 loginY ∧
     insert_site empty0 3 siteX = insert_site empty0 3 siteY ∧
     upsert_response empty0 3 respX = upsert_response empty0 3 respY ∧
     (insert_user empty0 3 "x").2.created_at = 3 ∧
     (insert_user empty0 3 "x").2.updated_at = 3 ∧
     (insert_login empty0 3 loginX).2.created_at = 3 ∧
     (insert_site empty0 3 siteX).2.created_at = 3 ∧
     (insert_site empty0 3 siteX).2.updated_at = 3 ∧
     (upsert_response empty0 3 respX).2.updated_at = 3) :=
  ⟨rfl, rfl, rfl, rfl, rfl,
   writes_ignore_caller_timestamps empty0 3 "x" loginX loginY siteX siteY
     respX respY rfl rfl rfl rfl rfl⟩

/-- C10: for every caller record, insert_site persists name = none (the
name column is absent from the insert list) while writing the caller's
url and user_id and the gateway timestamps; the new row is appended to
the sites table. -/
theorem insert_site_discards_name (s : DBState) (now : Int) (site : Site) :
    (insert_site s now site).2.name = none ∧
    (insert_site s now site).2.url = site.url ∧
    (insert_site s now site).2.user_id = site.user_id ∧
    (insert_site s now site).2.created_at = now ∧
    (insert_site s now site).2.updated_at = now ∧
    (insert_site s now site).1.sites = s.sites ++ [(insert_site s now site).2] :=
  ⟨rfl, rfl, rfl, rfl, rfl, rfl⟩
